import Mathlib

/-!
Verification of the supakit request-dispatch pipeline (the `Supakit` class in
`src/supakit.ts`) against its natural-language specification.

The development is a shallow embedding of the TypeScript source:

* JavaScript values that flow through the pipeline (handler results, parsed
  JSON bodies, query/header maps, schema outputs) are modelled by the mutually
  inductive type `JSVal`, which distinguishes `undefined` from `null` and
  treats `File` objects as opaque scalars carrying their name.
* Zod schemas appear in the source only through `safeParse`; they are modelled
  as the capability `Schema : JSVal → SchemaResult` (success with a value, or
  failure with a list of issues), exactly the seam the spec describes.
* The request object is modelled by `Req`: its `json()` accessor is an
  `Option JSVal` (`none` when parsing would throw) and its `formData()`
  accessor an `Option FormDataV` (`none` when parsing would throw).
* Asynchronous control flow carries no observable state in the source, so
  `async`/`await` is erased.  The per-request mutable variable `idx` of
  `serve`'s `dispatch` function, plus two ghost flags recording whether the
  validation phase and the handler were entered, form a `Trace` state that is
  threaded explicitly (`TraceM`).
* `JSON.stringify(x, null, 2)` is modelled by `jsonStr`, which reproduces the
  treatment of `undefined` (dropped object entries, `null` array elements,
  `none` at top level) but not the pretty-printing whitespace or string
  escaping, which no statement below depends on.
-/

mutual
/-- JavaScript runtime values, as far as the pipeline inspects them.
`vfile` stands for a `File` object (opaque, identified by its name). -/
inductive JSVal where
  | undef
  | vnull
  | vbool (b : Bool)
  | vnum (n : Int)
  | vstr (s : String)
  | vfile (name : String)
  | varr (elems : JSArr)
  | vobj (fields : JSObj)
deriving Repr

inductive JSArr where
  | nil
  | cons (hd : JSVal) (tl : JSArr)
deriving Repr

inductive JSObj where
  | nil
  | cons (key : String) (val : JSVal) (tl : JSObj)
deriving Repr
end

def JSArr.ofList : List JSVal → JSArr
  | [] => .nil
  | x :: xs => .cons x (JSArr.ofList xs)

def JSObj.ofList : List (String × JSVal) → JSObj
  | [] => .nil
  | (k, v) :: fs => .cons k v (JSObj.ofList fs)

def JSObj.toList : JSObj → List (String × JSVal)
  | .nil => []
  | .cons k v fs => (k, v) :: JSObj.toList fs

/-- `key in obj` (JS property test on a plain object). -/
def JSObj.hasKey : JSObj → String → Bool
  | .nil, _ => false
  | .cons k _ fs, key => k == key || JSObj.hasKey fs key

/-- `obj.key` (JS property access: `undefined` when the key is absent). -/
def JSObj.getKey : JSObj → String → JSVal
  | .nil, _ => .undef
  | .cons k v fs, key => if k == key then v else JSObj.getKey fs key

/-- JS `v === undefined` (the guard `resBody !== undefined` negated). -/
def isUndef : JSVal → Bool
  | .undef => true
  | _ => false

/-- JS `v === undefined || v === null`, the test made by `??`. -/
def isNullish : JSVal → Bool
  | .undef => true
  | .vnull => true
  | _ => false

/-- JS nullish coalescing `a ?? b`. -/
def coalesce (a b : JSVal) : JSVal := if isNullish a then b else a

/-- One JS property assignment `m[key] = v` on an object represented as an
ordered association list: an existing key keeps its position, a new key is
appended.  Object spread `\x7b...a, ...b\x7d` is a sequence of such assignments. -/
def setKey (m : List (String × JSVal)) (key : String) (v : JSVal) : List (String × JSVal) :=
  if m.any (fun kv => kv.1 == key) then
    m.map (fun kv => if kv.1 == key then (key, v) else kv)
  else m ++ [(key, v)]

/-- Assign every entry of `entries` into `m` in order (JS object spread /
`Object.fromEntries` accumulation). -/
def objAssign (m : List (String × JSVal)) (entries : List (String × JSVal)) : List (String × JSVal) :=
  entries.foldl (fun acc kv => setKey acc kv.1 kv.2) m

/-- Entries contributed by spreading `v ?? \x7b\x7d` into an object literal:
the fields when `v` is a plain object, nothing when `v` is nullish (other
primitives spread no enumerable own entries that the source relies on). -/
def spreadEntries : JSVal → List (String × JSVal)
  | .vobj fs => fs.toList
  | _ => []

/-- Prefix test on character lists (kernel-computable). -/
def charsPrefixOf : List Char → List Char → Bool
  | [], _ => true
  | _ :: _, [] => false
  | c :: cs, d :: ds => c == d && charsPrefixOf cs ds

/-- Substring occurrence on character lists (kernel-computable). -/
def charsContains (s sub : List Char) : Bool :=
  match s with
  | [] => sub.isEmpty
  | c :: rest => charsPrefixOf sub (c :: rest) || charsContains rest sub

/-- JS `s.includes(sub)`. -/
def jsIncludes (s sub : String) : Bool := charsContains s.data sub.data

/-- JS `s.startsWith(p)`. -/
def jsStartsWith (s p : String) : Bool := charsPrefixOf p.data s.data

/-- A structured validation diagnostic, as produced by the schema capability
(`result.error.issues` elements are inspected only as opaque records with a
message). -/
structure Issue where
  message : String
deriving DecidableEq, Repr

/-- Result of `schema.safeParse(value)`. -/
inductive SchemaResult where
  | ok (data : JSVal)
  | fail (issues : List Issue)

/-- The injected validation capability (a Zod schema, seen through
`safeParse`). -/
def Schema := JSVal → SchemaResult

/-- One `FormData` entry: a string field or a `File`. -/
inductive FormEntry where
  | str (s : String)
  | file (name : String)
deriving DecidableEq, Repr

/-- A parsed `FormData` object: its ordered entry list. -/
def FormDataV := List (String × FormEntry)

/-- The `JSVal` a `FormData` entry contributes to a validated body object. -/
def formEntryVal : FormEntry → JSVal
  | .str s => .vstr s
  | .file n => .vfile n

/-- An incoming request, as far as the pipeline reads it.  `jsonBody` is the
result of `req.json()` (`none` when it would throw), `formBody` the result of
`req.formData()` (`none` when it would throw). -/
structure Req where
  method : String
  pathname : String
  query : List (String × String)
  headers : List (String × String)
  jsonBody : Option JSVal
  formBody : Option FormDataV

/-- `req.headers.get(key)`.  The Fetch `Headers` object normalizes header
names to lower case, so `Req.headers` is modelled as the already-normalized
(lower-cased) name/value list and lookup is exact; the source only looks up
the lower-case name `"content-type"`. -/
def headerGet (req : Req) (key : String) : Option String :=
  (req.headers.find? (fun kv => kv.1 == key)).map (fun kv => kv.2)

/-- `req.headers.get("content-type") || ""`. -/
def contentTypeOf (req : Req) : String := (headerGet req "content-type").getD ""

/-- An outgoing `Response`.  The status is kept as the JS value the source
passes to the `Response` constructor; `body` is `none` for `null`/`undefined`
bodies. -/
structure Resp where
  status : JSVal
  headers : List (String × JSVal)
  body : Option String

/-- What a middleware or the dispatch chain produces: a pre-built `Response`
instance, or any other value. -/
inductive DispatchVal where
  | resp (r : Resp)
  | val (v : JSVal)

/-- Per-request trace: `idx` is the source's own mutable index variable in
`serve`'s `dispatch`; `validationEntered` and `handlerEntered` are ghost
flags set by the embedding when the terminal action reaches the validation
phase resp. the handler call.  Middleware and handlers never touch them. -/
structure Trace where
  idx : Int
  validationEntered : Bool
  handlerEntered : Bool
deriving DecidableEq, Repr

/-- Explicit state-passing for the trace. -/
def TraceM (α : Type) := Trace → α × Trace

/-- The context object built for the handler (`SupakitContext`). -/
structure SupakitContext where
  formData : Option FormDataV
  validatedBody : JSVal
  validatedQuery : JSVal
  validatedHeaders : JSVal
  params : JSVal

/-- A route handler (`HandlerFunction`): context in, result out. -/
def Handler := SupakitContext → DispatchVal

/-- A middleware (`MiddlewareFunction`): request and continuation in, result
out.  The continuation and the result are trace-threaded. -/
def Middleware := Req → (Unit → TraceM DispatchVal) → TraceM DispatchVal

/-- A registered route (`RouteDefinition`). -/
structure RouteDefinition where
  path : String
  methods : Option (List String)
  handler : Handler
  headersSchema : Option Schema
  bodySchema : Option Schema
  querySchema : Option Schema
  responseSchema : Option Schema
  middlewares : Option (List Middleware)

mutual
/-- `replaceUndefinedWithEmpty` (src/supakit.ts): arrays are mapped
recursively, plain objects have `undefined` values replaced by `""` and other
values recursed into, everything else is returned unchanged.  Note that an
`undefined` array element is passed to the recursive call, which returns it
unchanged. -/
def replaceUndefinedWithEmpty : JSVal → JSVal
  | .varr xs => .varr (replaceUndefinedWithEmptyArr xs)
  | .vobj fs => .vobj (replaceUndefinedWithEmptyObj fs)
  | v => v

def replaceUndefinedWithEmptyArr : JSArr → JSArr
  | .nil => .nil
  | .cons x xs => .cons (replaceUndefinedWithEmpty x) (replaceUndefinedWithEmptyArr xs)

def replaceUndefinedWithEmptyObj : JSObj → JSObj
  | .nil => .nil
  | .cons k v fs =>
      .cons k (match v with | .undef => .vstr "" | v' => replaceUndefinedWithEmpty v')
        (replaceUndefinedWithEmptyObj fs)
end

mutual
/-- `JSON.stringify(v, null, 2)`, minus whitespace and string escaping:
`undefined` serializes to `none` at top level, is dropped from objects, and
becomes `null` inside arrays. -/
def jsonStr : JSVal → Option String
  | .undef => none
  | .vnull => some "null"
  | .vbool b => some (if b then "true" else "false")
  | .vnum n => some (toString n)
  | .vstr s => some ("\"" ++ s ++ "\"")
  | .vfile n => some ("\"" ++ n ++ "\"")
  | .varr xs => some ("[" ++ String.intercalate "," (jsonStrArr xs) ++ "]")
  | .vobj fs => some ("\x7b" ++ String.intercalate "," (jsonStrObj fs) ++ "\x7d")

def jsonStrArr : JSArr → List String
  | .nil => []
  | .cons x xs => ((jsonStr x).getD "null") :: jsonStrArr xs

def jsonStrObj : JSObj → List String
  | .nil => []
  | .cons k v fs =>
      match jsonStr v with
      | none => jsonStrObj fs
      | some s => ("\"" ++ k ++ "\":" ++ s) :: jsonStrObj fs
end

/-- `corsHeaders()` (src/supakit.ts). -/
def corsHeaderList : List (String × JSVal) :=
  [("Access-Control-Allow-Origin", .vstr "*"),
   ("Access-Control-Allow-Headers", .vstr "authorization, x-client-info, apikey, content-type"),
   ("Access-Control-Allow-Methods", .vstr "GET, POST, PUT, DELETE, OPTIONS")]

/-- `errorResponse(message, status, issues?)` (src/supakit.ts): a JSON error
envelope with the CORS headers and `Content-Type` applied. -/
def errorResponse (message : String) (status : Int) (issues : Option (List Issue)) : Resp :=
  let errorBody : JSVal :=
    .vobj (JSObj.ofList
      ([("success", .vbool false), ("error", .vstr message)] ++
        (match issues with
         | some iss => [("issues", .varr (JSArr.ofList (iss.map (fun i => .vobj (JSObj.ofList [("message", .vstr i.message)])))))]
         | none => [])))
  { status := .vnum status,
    headers := objAssign corsHeaderList [("Content-Type", .vstr "application/json")],
    body := jsonStr errorBody }

/-- `handleCors(req)` (src/supakit.ts): an `OPTIONS` request is answered with
a 204 and the CORS headers. -/
def handleCors (req : Req) : Option Resp :=
  if req.method == "OPTIONS" then
    some { status := .vnum 204, headers := corsHeaderList, body := none }
  else none

/-- `parseFormData(req)` (src/supakit.ts): pre-parse `formData` only for
`POST`/`PUT` requests whose content-type includes `multipart/form-data`;
a parse failure is swallowed into `undefined`. -/
def parseFormData (req : Req) : Option FormDataV :=
  if (req.method == "POST" || req.method == "PUT")
      && jsIncludes (contentTypeOf req) "multipart/form-data" then
    req.formBody
  else none

/-- The `type` tag of the typed validation errors thrown by the extraction
phase. -/
inductive ValKind where
  | query
  | headers
  | body
deriving DecidableEq, Repr

/-- A typed validation error (`throw \x7btype, issues\x7d` in the source). -/
structure ValErr where
  kind : ValKind
  issues : List Issue
deriving DecidableEq, Repr

/-- `parseAndValidateQuery(req, schema)` (src/supakit.ts): without a schema it
returns `undefined`; with one it builds the flat query object by repeated
assignment over `searchParams` and runs the schema. -/
def parseAndValidateQuery (req : Req) (schema : Option Schema) : Except ValErr JSVal :=
  match schema with
  | none => .ok .undef
  | some sch =>
      let queryObj := objAssign [] (req.query.map (fun kv => (kv.1, JSVal.vstr kv.2)))
      match sch (.vobj (JSObj.ofList queryObj)) with
      | .fail issues => .error ⟨.query, issues⟩
      | .ok d => .ok d

/-- `parseAndValidateHeaders(req, schema)` (src/supakit.ts): without a schema
it returns `undefined`; with one it collects the (already lower-cased, see `Req.headers`) header names and
runs the schema. -/
def parseAndValidateHeaders (req : Req) (schema : Option Schema) : Except ValErr JSVal :=
  match schema with
  | none => .ok .undef
  | some sch =>
      let headersObj := objAssign [] (req.headers.map (fun kv => (kv.1, JSVal.vstr kv.2)))
      match sch (.vobj (JSObj.ofList headersObj)) with
      | .fail issues => .error ⟨.headers, issues⟩
      | .ok d => .ok d

/-- Result of `parseAndValidateBody`. -/
structure BodyResult where
  body : JSVal
  formData : Option FormDataV

/-- `parseAndValidateBody(req, schema, formData)` (src/supakit.ts): without a
schema the body stays `undefined` and the incoming `formData` is passed
through.  With a schema, a content-type including `application/json` is
parsed as JSON (a parse failure throws the single `Malformed JSON` issue), a
content-type including `multipart/form-data` collects the (cached or freshly
parsed) form entries into an object, and any other content-type leaves the
body data `undefined`; the schema then runs on the body data. -/
def parseAndValidateBody (req : Req) (schema : Option Schema) (formData : Option FormDataV) :
    Except ValErr BodyResult :=
  match schema with
  | none => .ok ⟨.undef, formData⟩
  | some sch =>
      let contentType := contentTypeOf req
      let parsed : Except ValErr (JSVal × Option FormDataV) :=
        if jsIncludes contentType "application/json" then
          match req.jsonBody with
          | none => .error ⟨.body, [⟨"Malformed JSON"⟩]⟩
          | some bd => .ok (bd, formData)
        else if jsIncludes contentType "multipart/form-data" then
          match (match formData with | some fd => some fd | none => req.formBody) with
          | none => .error ⟨.body, [⟨"Malformed multipart form-data"⟩]⟩
          | some fd =>
              .ok (.vobj (JSObj.ofList (objAssign [] (fd.map (fun kv => (kv.1, formEntryVal kv.2))))), some fd)
        else .ok (.undef, formData)
      match parsed with
      | .error e => .error e
      | .ok (bodyData, usedFd) =>
          match sch bodyData with
          | .fail issues => .error ⟨.body, issues⟩
          | .ok d => .ok ⟨d, usedFd⟩

/-- The validated extraction output of `validateRequest`. -/
structure ValOut where
  validatedQuery : JSVal
  validatedHeaders : JSVal
  validatedBody : JSVal
  formData : Option FormDataV

/-- `validateRequest(req, schemas, formData)` (src/supakit.ts): query, then
headers, then body, each short-circuiting with its typed error; the body
step may replace the cached `formData`. -/
def validateRequest (req : Req) (querySchema headersSchema bodySchema : Option Schema)
    (formData : Option FormDataV) : Except ValErr ValOut :=
  match parseAndValidateQuery req querySchema with
  | .error e => .error e
  | .ok vq =>
      match parseAndValidateHeaders req headersSchema with
      | .error e => .error e
      | .ok vh =>
          match parseAndValidateBody req bodySchema formData with
          | .error e => .error e
          | .ok br =>
              .ok ⟨vq, vh, br.body,
                   match br.formData with
                   | some fd => some fd
                   | none => formData⟩

/-- The error message `serve`'s dispatch attaches to each validation error
kind. -/
def valErrMessage : ValKind → String
  | .query => "Invalid query"
  | .headers => "Invalid headers"
  | .body => "Invalid body"

/-- The pre-handler part of `dispatch`'s terminal branch (src/supakit.ts,
`serve`): pre-parse `formData`, validate, and build the `SupakitContext`. -/
def buildCtx (route : RouteDefinition) (req : Req) : Except ValErr SupakitContext :=
  let formData := parseFormData req
  match validateRequest req route.querySchema route.headersSchema route.bodySchema formData with
  | .error e => .error e
  | .ok vo =>
      .ok { formData := vo.formData,
            validatedBody := vo.validatedBody,
            validatedQuery := vo.validatedQuery,
            validatedHeaders := vo.validatedHeaders,
            params := .vobj .nil }

/-- The terminal branch of `dispatch` (`i == middlewares.length`): run the
extraction phase, answer 400 on a typed validation error, otherwise call the
handler.  The ghost flags record that validation resp. the handler were
reached. -/
def terminalAction (route : RouteDefinition) (req : Req) : TraceM DispatchVal := fun tr =>
  let tr := { tr with validationEntered := true }
  match buildCtx route req with
  | .error e => (.resp (errorResponse (valErrMessage e.kind) 400 (some e.issues)), tr)
  | .ok ctx => (route.handler ctx, { tr with handlerEntered := true })

/-- `dispatch(i)` (src/supakit.ts, `serve`): record `idx = i`, then run the
i-th middleware with `dispatch(i+1)` as its continuation, or the terminal
action once the middleware list is exhausted. -/
def dispatchAux (req : Req) (terminal : TraceM DispatchVal) :
    List Middleware → Int → TraceM DispatchVal
  | [], i => fun tr => terminal { tr with idx := i }
  | mw :: rest, i => fun tr =>
      mw req (fun _ => dispatchAux req terminal rest (i + 1)) { tr with idx := i }

/-- The full middleware chain of a route: `let idx = -1; ... dispatch(0)`
with `route.middlewares || []`. -/
def dispatchChain (route : RouteDefinition) (req : Req) : TraceM DispatchVal := fun tr =>
  dispatchAux req (terminalAction route req) (route.middlewares.getD []) 0 { tr with idx := -1 }

/-- The shape-sniffing test of `serve` (src/supakit.ts): the sanitized result
is destructured when it is a plain object carrying a `status`, `body` or
`headers` key. -/
def isShapedResult : JSVal → Bool
  | .vobj fs => fs.hasKey "status" || fs.hasKey "body" || fs.hasKey "headers"
  | _ => false

/-- The object fields of a value (empty for non-objects). -/
def objFields : JSVal → JSObj
  | .vobj fs => fs
  | _ => .nil

/-- The default response headers of `serve`:
`\x7b "Content-Type": "application/json", ...corsHeaders() \x7d`. -/
def defaultResHeaders : List (String × JSVal) :=
  objAssign [("Content-Type", .vstr "application/json")] corsHeaderList

/-- The `status`/`resHeaders`/`resBody` computation of `serve` on the
sanitized handler result: defaults, then the destructuring branch when the
result is shaped (`status ?? 200`; handler headers spread over the defaults;
the `body` key if present, else `data ?? body`). -/
def normalizeShape (safeResult : JSVal) : JSVal × List (String × JSVal) × JSVal :=
  if isShapedResult safeResult then
    let fs := objFields safeResult
    (coalesce (fs.getKey "status") (.vnum 200),
     objAssign defaultResHeaders (spreadEntries (coalesce (fs.getKey "headers") (.vobj .nil))),
     if fs.hasKey "body" then fs.getKey "body"
     else coalesce (fs.getKey "data") (fs.getKey "body"))
  else (.vnum 200, defaultResHeaders, safeResult)

/-- The final `Response` construction of `serve`: a string body is sent
verbatim, anything else is `JSON.stringify`-ed. -/
def buildResp (status : JSVal) (headers : List (String × JSVal)) (resBody : JSVal) : Resp :=
  { status := status, headers := headers,
    body := match resBody with | .vstr s => some s | v => jsonStr v }

/-- The response-normalization tail of `serve` on a non-`Response` handler
result: scrub `undefined`s, destructure a shaped result, apply the response
schema when one is declared and the resolved body is not `undefined`, and
build the `Response`. -/
def normalizeHandlerValue (route : RouteDefinition) (handlerVal : JSVal) : Resp :=
  let safeResult := replaceUndefinedWithEmpty handlerVal
  let parts := normalizeShape safeResult
  let status := parts.1
  let resHeaders := parts.2.1
  let resBody := parts.2.2
  match route.responseSchema with
  | some sch =>
      if isUndef resBody then buildResp status resHeaders resBody
      else
        match sch resBody with
        | .fail issues => errorResponse "Invalid response data" 500 (some issues)
        | .ok d => buildResp status resHeaders d
  | none => buildResp status resHeaders resBody

/-- The route-matching predicate of `serve` (src/supakit.ts): exact pathname
equality, and when a `methods` list is present it must contain the request
method. -/
def routeMatches (r : RouteDefinition) (method pathname : String) : Bool :=
  if r.path != pathname then false
  else
    match r.methods with
    | some ms => ms.contains method
    | none => true

/-- `routes.find(...)`: first registered definition that matches. -/
def findRoute (routes : List RouteDefinition) (method pathname : String) :
    Option RouteDefinition :=
  routes.find? (fun r => routeMatches r method pathname)

/-- The per-route part of `serve`: run the middleware chain; a `Response`
instance is returned as-is, anything else goes through normalization. -/
def serveRoute (route : RouteDefinition) (req : Req) : TraceM Resp := fun tr =>
  let out := dispatchChain route req tr
  match out.1 with
  | .resp r => (r, out.2)
  | .val v => (normalizeHandlerValue route v, out.2)

/-- One full request through `Supakit.serve`'s handler (src/supakit.ts):
CORS preflight, route matching (404 when nothing matches), then the
middleware chain and normalization.  The top-level `catch` is not modelled:
every embedded component is total. -/
def serveStep (routes : List RouteDefinition) (req : Req) : TraceM Resp := fun tr =>
  match handleCors req with
  | some r => (r, tr)
  | none =>
      match findRoute routes req.method req.pathname with
      | none => (errorResponse "Not Found" 404 none, tr)
      | some route => serveRoute route req tr

/-- The options object accepted by the route-registration methods (a route
definition minus path and method). -/
structure Opts where
  handler : Handler
  headersSchema : Option Schema := none
  bodySchema : Option Schema := none
  querySchema : Option Schema := none
  responseSchema : Option Schema := none
  middlewares : Option (List Middleware) := none

/-- `Supakit._addWithProxy` (src/supakit.ts): build the full path, then push
a definition whose middleware list is the route-specific middlewares followed
by the group-inherited ones. -/
def addWithProxy (routes : List RouteDefinition) (method basePath path : String)
    (opts : Opts) (middlewares : List Middleware) : List RouteDefinition :=
  let fullPath := basePath ++ (if jsStartsWith path "/" then path else "/" ++ path)
  routes ++ [{ path := fullPath,
               methods := some [method],
               handler := opts.handler,
               headersSchema := opts.headersSchema,
               bodySchema := opts.bodySchema,
               querySchema := opts.querySchema,
               responseSchema := opts.responseSchema,
               middlewares := some (opts.middlewares.getD [] ++ middlewares) }]

/-- The root `Supakit` instance: base path, route registry, app-level
middlewares.  (`parent`/`getRoot` always resolve to this root in the
embedding: proxies carry no registry of their own.) -/
structure SupakitRoot where
  basePath : String
  routes : List RouteDefinition
  middlewares : List Middleware

/-- `new Supakit(basePath = "")`. -/
def mkSupakit (basePath : String) : SupakitRoot :=
  { basePath :=
      if jsStartsWith basePath "/" then basePath
      else if basePath != "" then "/" ++ basePath else "",
    routes := [], middlewares := [] }

/-- `Supakit.use(mw)`. -/
def SupakitRoot.use (s : SupakitRoot) (mw : Middleware) : SupakitRoot :=
  { s with middlewares := s.middlewares ++ [mw] }

/-- `Supakit.getFullPath(path)`. -/
def getFullPath (basePath path : String) : String :=
  if path == "" || path == "/" then basePath
  else basePath ++ (if jsStartsWith path "/" then path else "/" ++ path)

/-- The group proxy returned by `Supakit.base`/`group` and `_makeProxy`: an
extended base path and the inherited middleware list. -/
structure Proxy where
  basePath : String
  middlewares : List Middleware

/-- `Supakit.base(subPath)`: a proxy over the root with the extended path and
a copy of the current middlewares. -/
def SupakitRoot.base (s : SupakitRoot) (subPath : String) : Proxy :=
  { basePath := getFullPath s.basePath subPath, middlewares := s.middlewares }

/-- The proxy's `use(mw)`: push onto the inherited list. -/
def Proxy.use (p : Proxy) (mw : Middleware) : Proxy :=
  { p with middlewares := p.middlewares ++ [mw] }

/-- The proxy's `group(sub)` (and `base`, which delegates to it): a deeper
proxy with the concatenated path and a copy of the middleware list. -/
def Proxy.group (p : Proxy) (sub : String) : Proxy :=
  { basePath := p.basePath ++ (if jsStartsWith sub "/" then sub else "/" ++ sub),
    middlewares := p.middlewares }

/-- The proxy's `get`/`post`/`put`/`delete`: register on the root through
`_addWithProxy`. -/
def Proxy.add (p : Proxy) (root : SupakitRoot) (method path : String) (opts : Opts) :
    SupakitRoot :=
  { root with routes := addWithProxy root.routes method p.basePath path opts p.middlewares }

/-- `Supakit.get/post/put/delete` on the root itself. -/
def SupakitRoot.add (s : SupakitRoot) (method path : String) (opts : Opts) : SupakitRoot :=
  { s with routes := addWithProxy s.routes method s.basePath path opts s.middlewares }

/-- Entering a nested group and registering its middlewares: `p.group(sub)`
followed by one `use` per listed middleware.  (A composition of the source
operations, used to quantify over arbitrarily deep nesting.) -/
def applyGroupSpec (p : Proxy) (spec : String × List Middleware) : Proxy :=
  spec.2.foldl Proxy.use (p.group spec.1)

/-- A minimal request fixture. -/
def reqStub : Req :=
  { method := "GET", pathname := "/", query := [], headers := [], jsonBody := none,
    formBody := none }

/-- A handler fixture returning `null`. -/
def handlerNull : Handler := fun _ => .val .vnull

/-- A middleware fixture that ignores its continuation and returns `1`. -/
def mwOne : Middleware := fun _ _ tr => (.val (.vnum 1), tr)

/-- A middleware fixture that ignores its continuation and returns `2`. -/
def mwTwo : Middleware := fun _ _ tr => (.val (.vnum 2), tr)

/-- The trace at the start of a request. -/
def trace0 : Trace := { idx := -1, validationEntered := false, handlerEntered := false }

theorem foldl_use_middlewares (g : List Middleware) (p : Proxy) :
    (g.foldl Proxy.use p).middlewares = p.middlewares ++ g := by
  induction g generalizing p with
  | nil => simp
  | cons m rest ih => simp [List.foldl, ih, Proxy.use]

theorem foldl_groupSpec_middlewares (specs : List (String × List Middleware)) (p : Proxy) :
    (specs.foldl applyGroupSpec p).middlewares = p.middlewares ++ (specs.map Prod.snd).flatten := by
  induction specs generalizing p with
  | nil => simp
  | cons s rest ih =>
      simp [List.foldl, ih, applyGroupSpec, foldl_use_middlewares, Proxy.group,
        List.append_assoc]

theorem mwOne_ne_mwTwo : mwOne ≠ mwTwo := by
  intro h
  have h2 := congrFun (congrFun (congrFun h reqStub) (fun _ => fun tr => (.val .vnull, tr))) trace0
  simp [mwOne, mwTwo] at h2

/-- The root, options and registration result used to refute C1's ordering. -/
def c1Root : SupakitRoot := mkSupakit ""

def c1Opts : Opts := { handler := handlerNull, middlewares := some [mwTwo] }

def c1Registered : SupakitRoot := ((c1Root.base "/api").use mwOne).add c1Root "GET" "/x" c1Opts

/-- C1 counterexample: a route registered through one group carrying group
middleware `mwOne`, with route-specific middleware `mwTwo`, stores the list
`[mwTwo, mwOne]` — route middleware first — and not the claimed
groups-then-route order `[mwOne, mwTwo]`. -/
theorem c1_counterexample :
    c1Registered.routes.map (fun r => r.middlewares) = [some [mwTwo, mwOne]]
    ∧ c1Registered.routes.map (fun r => r.middlewares) ≠ [some [mwOne, mwTwo]] := by
  refine ⟨rfl, ?_⟩
  intro h
  have h1 : (some [mwTwo, mwOne] : Option (List Middleware)) = some [mwOne, mwTwo] :=
    (List.cons.inj h).1
  have h3 : mwTwo = mwOne := (List.cons.inj (Option.some.inj h1)).1
  exact mwOne_ne_mwTwo h3.symm

/-- C1 (corrected): for a route registered through one or more nested groups,
the middleware list stored on the RouteDefinition is the middlewares declared
directly on the route definition, followed by the concatenation of the
enclosing groups' middlewares in outer-to-inner registration order —
`_addWithProxy` puts the route-specific middlewares first, not last. -/
theorem c1_nested_group_middleware_order (root : SupakitRoot) (sub0 : String)
    (g0 : List Middleware) (specs : List (String × List Middleware))
    (method path : String) (opts : Opts) :
    ∃ r : RouteDefinition,
      ((specs.foldl applyGroupSpec (g0.foldl Proxy.use (root.base sub0))).add root method path
          opts).routes = root.routes ++ [r]
      ∧ r.middlewares
          = some (opts.middlewares.getD []
              ++ (root.middlewares ++ g0 ++ (specs.map Prod.snd).flatten)) := by
  refine ⟨_, rfl, ?_⟩
  show some (opts.middlewares.getD []
      ++ (specs.foldl applyGroupSpec (g0.foldl Proxy.use (root.base sub0))).middlewares) = _
  rw [foldl_groupSpec_middlewares, foldl_use_middlewares]
  simp [SupakitRoot.base, List.append_assoc]

theorem dispatchAux_short_circuit (req : Req) (terminal : TraceM DispatchVal)
    (mw : Middleware) (v : DispatchVal)
    (hshort : ∀ k tr, mw req k tr = (v, tr)) :
    ∀ (pre post : List Middleware),
      (∀ m ∈ pre, ∀ k tr, m req k tr = k () tr) →
      ∀ (i : Int) (tr : Trace),
        dispatchAux req terminal (pre ++ mw :: post) i tr
          = (v, { tr with idx := i + pre.length }) := by
  intro pre
  induction pre with
  | nil =>
      intro post _ i tr
      simp only [List.nil_append, dispatchAux]
      rw [hshort]
      simp
  | cons m rest ih =>
      intro post hdeleg i tr
      simp only [List.cons_append, dispatchAux]
      rw [hdeleg m (by simp)]
      simp only [List.append_eq]
      rw [ih post (fun m' hm' => hdeleg m' (by simp [hm'])) (i + 1) { tr with idx := i }]
      simp only [List.length_cons]
      congr 1
      simp only [Trace.mk.injEq, and_true]
      push_cast
      ring

/-- C2 (confirmed): when a route's middleware chain contains a middleware
that returns a value `v` without invoking its continuation (after any number
of purely delegating predecessors), `v` is the chain's final result, the
trace shows the chain stopped at that middleware's index with the
validation-phase and handler flags untouched (so neither the later
middlewares, nor extraction/validation, nor the handler ran), and when `v` is
a pre-built `Response` it is returned by `serve` exactly as-is, bypassing
normalization. -/
theorem c2_middleware_short_circuit (req : Req) (route : RouteDefinition)
    (pre post : List Middleware) (mw : Middleware) (v : DispatchVal)
    (hmws : route.middlewares = some (pre ++ mw :: post))
    (hshort : ∀ k tr, mw req k tr = (v, tr))
    (hdeleg : ∀ m ∈ pre, ∀ k tr, m req k tr = k () tr) :
    (∀ tr, dispatchChain route req tr = (v, { tr with idx := (pre.length : Int) }))
    ∧ (∀ r tr, v = .resp r →
        serveRoute route req tr = (r, { tr with idx := (pre.length : Int) })) := by
  have hmain : ∀ tr, dispatchChain route req tr = (v, { tr with idx := (pre.length : Int) }) := by
    intro tr
    show dispatchAux req (terminalAction route req) (route.middlewares.getD []) 0
        { tr with idx := -1 } = _
    rw [hmws]
    show dispatchAux req (terminalAction route req) (pre ++ mw :: post) 0
        { tr with idx := -1 } = _
    rw [dispatchAux_short_circuit req (terminalAction route req) mw v hshort pre post hdeleg 0
        { tr with idx := -1 }]
    simp
  refine ⟨hmain, ?_⟩
  intro r tr hv
  show (let out := dispatchChain route req tr
        match out.1 with
        | .resp r => (r, out.2)
        | .val v => (normalizeHandlerValue route v, out.2)) = _
  rw [hmain tr, hv]

/-- A middleware fixture that always delegates to its continuation. -/
def mwDelegate : Middleware := fun _ k tr => k () tr

/-- A pre-built 401 response without CORS headers (as a middleware would
build with `new Response(...)`). -/
def c2Resp : Resp := { status := .vnum 401, headers := [], body := some "Unauthorized" }

/-- A middleware fixture that short-circuits with `c2Resp`. -/
def mwShort : Middleware := fun _ _ tr => (.resp c2Resp, tr)

/-- A route fixture whose chain delegates once and then short-circuits. -/
def c2Route : RouteDefinition :=
  { path := "/c2", methods := some ["GET"], handler := handlerNull,
    headersSchema := none, bodySchema := none, querySchema := none, responseSchema := none,
    middlewares := some [mwDelegate, mwShort] }

/-- C2 witness: on the concrete route `c2Route`, the chain's result is the
middleware's pre-built response, returned unmodified with the handler and
validation flags still false. -/
theorem c2_witness :
    serveRoute c2Route reqStub trace0
      = (c2Resp, { idx := 1, validationEntered := false, handlerEntered := false }) := by
  have h := (c2_middleware_short_circuit reqStub c2Route [mwDelegate] [] mwShort (.resp c2Resp)
    rfl (fun _ _ => rfl)
    (by intro m hm k tr; simp only [List.mem_singleton] at hm; subst hm; rfl)).2
    c2Resp trace0 rfl
  simpa using h

/-- C3 (confirmed): `routeMatches` holds exactly when the path is equal as a
string and the method set, if present, contains the method; `routes.find`
returns the first definition in registration order whose predicate holds (so
the first registered of two same-path-same-method routes wins); and when no
definition matches a non-preflight request, `serve` answers with the 404
`Not Found` error response. -/
theorem c3_route_matching :
    (∀ (r : RouteDefinition) (method pathname : String),
        routeMatches r method pathname = true ↔
          (r.path = pathname ∧ ∀ ms, r.methods = some ms → ms.contains method = true))
    ∧ (∀ (method pathname : String) (pre : List RouteDefinition) (r : RouteDefinition)
          (post : List RouteDefinition),
          (∀ r' ∈ pre, routeMatches r' method pathname = false) →
          routeMatches r method pathname = true →
          findRoute (pre ++ r :: post) method pathname = some r)
    ∧ (∀ (routes : List RouteDefinition) (req : Req) (tr : Trace),
          req.method ≠ "OPTIONS" →
          findRoute routes req.method req.pathname = none →
          serveStep routes req tr = (errorResponse "Not Found" 404 none, tr)) := by
  refine ⟨?_, ?_, ?_⟩
  · intro r method pathname
    rcases r with ⟨path, methods, h1, h2, h3, h4, h5, h6⟩
    by_cases hp : path = pathname
    · subst hp
      cases methods with
      | none => simp [routeMatches]
      | some ms => simp [routeMatches]
    · cases methods with
      | none => simp [routeMatches, bne_iff_ne, hp]
      | some ms => simp [routeMatches, bne_iff_ne, hp]
  · intro method pathname pre r post hpre hr
    induction pre with
    | nil => simp [findRoute, List.find?, hr]
    | cons r' rest ih =>
        have h' := hpre r' (by simp)
        simp only [List.cons_append, findRoute, List.find?, h']
        exact ih (fun x hx => hpre x (by simp [hx]))
  · intro routes req tr hopt hfind
    unfold serveStep
    have hc : handleCors req = none := by
      unfold handleCors
      simp [hopt]
    rw [hc, hfind]

/-- A concrete GET route at `/a`. -/
def c3Route : RouteDefinition :=
  { path := "/a", methods := some ["GET"], handler := handlerNull,
    headersSchema := none, bodySchema := none, querySchema := none, responseSchema := none,
    middlewares := none }

/-- C3 witness: the matching predicate, the first-registered-wins lookup and
the 404 fallback, each at a concrete input. -/
theorem c3_witness :
    routeMatches c3Route "GET" "/a" = true
    ∧ findRoute [c3Route, c3Route] "GET" "/a" = some c3Route
    ∧ serveStep [] reqStub trace0 = (errorResponse "Not Found" 404 none, trace0) := by
  refine ⟨?_, ?_, ?_⟩
  · exact (c3_route_matching.1 c3Route "GET" "/a").mpr
      ⟨rfl, by intro ms hms; injection hms with h; subst h; rfl⟩
  · exact c3_route_matching.2.1 "GET" "/a" [] c3Route [c3Route]
      (by intro r' h; simp at h) rfl
  · exact c3_route_matching.2.2 [] reqStub trace0 (by decide) rfl

/-- A schema-free catch-all route fixture. -/
def plainRoute : RouteDefinition :=
  { path := "/r", methods := none, handler := handlerNull,
    headersSchema := none, bodySchema := none, querySchema := none, responseSchema := none,
    middlewares := none }

theorem getKey_eq_undef_of_hasKey_false : ∀ (fs : JSObj) (k : String),
    fs.hasKey k = false → fs.getKey k = .undef
  | .nil, _, _ => rfl
  | .cons k' v fs, k, h => by
      simp only [JSObj.hasKey, Bool.or_eq_false_iff] at h
      simp only [JSObj.getKey, h.1, Bool.false_eq_true, if_false]
      exact getKey_eq_undef_of_hasKey_false fs k h.2

theorem normalizeShape_shaped (fs : JSObj)
    (hshaped : (fs.hasKey "status" || fs.hasKey "body" || fs.hasKey "headers") = true) :
    normalizeShape (.vobj fs)
      = (coalesce (fs.getKey "status") (.vnum 200),
         objAssign defaultResHeaders (spreadEntries (coalesce (fs.getKey "headers") (.vobj .nil))),
         if fs.hasKey "body" then fs.getKey "body"
         else coalesce (fs.getKey "data") (fs.getKey "body")) := by
  unfold normalizeShape
  simp [isShapedResult, hshaped, objFields]

theorem normalizeHandlerValue_noSchema (route : RouteDefinition)
    (hro : route.responseSchema = none) (v : JSVal) :
    normalizeHandlerValue route v
      = buildResp (normalizeShape (replaceUndefinedWithEmpty v)).1
          (normalizeShape (replaceUndefinedWithEmpty v)).2.1
          (normalizeShape (replaceUndefinedWithEmpty v)).2.2 := by
  unfold normalizeHandlerValue
  rw [hro]

/-- The shaped handler result `\x7b status: 201, x: 5 \x7d`. -/
def c4Val : JSVal := .vobj (JSObj.ofList [("status", .vnum 201), ("x", .vnum 5)])

/-- C4 counterexample: a shaped result with a `status` key but neither a
`body` nor a `data` key resolves to an `undefined` response body (the built
response has no body at all), not to the remaining mapping `\x7b x: 5 \x7d`
that the claim's final clause predicts. -/
theorem c4_counterexample :
    (normalizeHandlerValue plainRoute c4Val).body = none
    ∧ (normalizeHandlerValue plainRoute c4Val).body
        ≠ jsonStr (.vobj (JSObj.ofList [("x", .vnum 5)])) := by
  refine ⟨rfl, ?_⟩
  intro h
  exact Option.noConfusion h

/-- C4 (corrected): for a shaped handler result the normalizer takes the
`status` key with default 200, merges the handler's headers over the default
`Content-Type: application/json` plus CORS set with handler entries winning,
and resolves the body to the `body` key if present, else the `data` key if
that is neither undefined nor null, else `undefined` — not to the whole
mapping minus `status`/`headers`. -/
theorem c4_shaped_result_normalization (route : RouteDefinition) (v : JSVal) (fs : JSObj)
    (hro : route.responseSchema = none)
    (hscrub : replaceUndefinedWithEmpty v = .vobj fs)
    (hshaped : (fs.hasKey "status" || fs.hasKey "body" || fs.hasKey "headers") = true) :
    normalizeHandlerValue route v =
      buildResp
        (if isNullish (fs.getKey "status") then .vnum 200 else fs.getKey "status")
        (objAssign (objAssign [("Content-Type", .vstr "application/json")] corsHeaderList)
          (spreadEntries (coalesce (fs.getKey "headers") (.vobj .nil))))
        (if fs.hasKey "body" then fs.getKey "body"
         else if isNullish (fs.getKey "data") then .undef else fs.getKey "data") := by
  rw [normalizeHandlerValue_noSchema route hro, hscrub, normalizeShape_shaped fs hshaped]
  by_cases hb : fs.hasKey "body" = true
  · simp [hb, coalesce, defaultResHeaders]
  · have hb' : fs.hasKey "body" = false := by revert hb; cases fs.hasKey "body" <;> simp
    simp [hb', coalesce, defaultResHeaders, getKey_eq_undef_of_hasKey_false fs "body" hb']

/-- The shaped handler result used as the C4 witness input. -/
def c4WitVal : JSVal :=
  .vobj (JSObj.ofList
    [("status", .vnum 201),
     ("headers", .vobj (JSObj.ofList [("X-Id", .vstr "7")])),
     ("data", .vobj (JSObj.ofList [("ok", .vbool true)]))])

/-- C4 witness: the amended normalization rule evaluated on the concrete
shaped result `\x7b status: 201, headers: \x7b X-Id: 7 \x7d, data: \x7b ok: true \x7d \x7d`. -/
theorem c4_witness :
    normalizeHandlerValue plainRoute c4WitVal
      = buildResp (.vnum 201)
          (objAssign (objAssign [("Content-Type", .vstr "application/json")] corsHeaderList)
            [("X-Id", .vstr "7")])
          (.vobj (JSObj.ofList [("ok", .vbool true)])) := by
  have h := c4_shaped_result_normalization plainRoute c4WitVal
    (JSObj.ofList
      [("status", .vnum 201),
       ("headers", .vobj (JSObj.ofList [("X-Id", .vstr "7")])),
       ("data", .vobj (JSObj.ofList [("ok", .vbool true)]))])
    rfl rfl rfl
  exact h

mutual
/-- No mapping (object) value anywhere inside the value is `undefined`
(array elements are unconstrained). -/
def objValuesClean : JSVal → Bool
  | .varr xs => objValuesCleanArr xs
  | .vobj fs => objValuesCleanObj fs
  | _ => true

def objValuesCleanArr : JSArr → Bool
  | .nil => true
  | .cons x xs => objValuesClean x && objValuesCleanArr xs

def objValuesCleanObj : JSObj → Bool
  | .nil => true
  | .cons _ v fs =>
      (match v with | .undef => false | _ => true) && objValuesClean v && objValuesCleanObj fs
end

mutual
theorem scrub_objValuesClean : ∀ v : JSVal, objValuesClean (replaceUndefinedWithEmpty v) = true
  | .undef => rfl
  | .vnull => rfl
  | .vbool _ => rfl
  | .vnum _ => rfl
  | .vstr _ => rfl
  | .vfile _ => rfl
  | .varr xs => by
      simp only [replaceUndefinedWithEmpty, objValuesClean]
      exact scrub_objValuesCleanArr xs
  | .vobj fs => by
      simp only [replaceUndefinedWithEmpty, objValuesClean]
      exact scrub_objValuesCleanObj fs

theorem scrub_objValuesCleanArr :
    ∀ xs : JSArr, objValuesCleanArr (replaceUndefinedWithEmptyArr xs) = true
  | .nil => rfl
  | .cons x xs => by
      simp only [replaceUndefinedWithEmptyArr, objValuesCleanArr]
      rw [scrub_objValuesClean x, scrub_objValuesCleanArr xs]
      rfl

theorem scrub_objValuesCleanObj :
    ∀ fs : JSObj, objValuesCleanObj (replaceUndefinedWithEmptyObj fs) = true
  | .nil => rfl
  | .cons k v fs => by
      cases v with
      | undef =>
          simp only [replaceUndefinedWithEmptyObj, objValuesCleanObj]
          rw [scrub_objValuesCleanObj fs]
          rfl
      | vnull =>
          simp only [replaceUndefinedWithEmptyObj, objValuesCleanObj]
          rw [scrub_objValuesCleanObj fs]
          rfl
      | vbool b =>
          simp only [replaceUndefinedWithEmptyObj, objValuesCleanObj]
          rw [scrub_objValuesCleanObj fs]
          rfl
      | vnum n =>
          simp only [replaceUndefinedWithEmptyObj, objValuesCleanObj]
          rw [scrub_objValuesCleanObj fs]
          rfl
      | vstr s =>
          simp only [replaceUndefinedWithEmptyObj, objValuesCleanObj]
          rw [scrub_objValuesCleanObj fs]
          rfl
      | vfile n =>
          simp only [replaceUndefinedWithEmptyObj, objValuesCleanObj]
          rw [scrub_objValuesCleanObj fs]
          rfl
      | varr xs =>
          simp only [replaceUndefinedWithEmptyObj, objValuesCleanObj,
            replaceUndefinedWithEmpty, objValuesClean]
          rw [scrub_objValuesCleanArr xs, scrub_objValuesCleanObj fs]
          rfl
      | vobj fs' =>
          simp only [replaceUndefinedWithEmptyObj, objValuesCleanObj,
            replaceUndefinedWithEmpty, objValuesClean]
          rw [scrub_objValuesCleanObj fs', scrub_objValuesCleanObj fs]
          rfl
end

/-- The claim's example handler result `\x7b a: undefined, b: [1, undefined, 3] \x7d`. -/
def c5Example : JSVal :=
  .vobj (JSObj.ofList
    [("a", .undef), ("b", .varr (JSArr.ofList [.vnum 1, .undef, .vnum 3]))])

/-- C5 counterexample: the claim's example scrubs to
`\x7b a: "", b: [1, undefined, 3] \x7d` — the `undefined` array element is
left in place — and not to `\x7b a: "", b: [1, "", 3] \x7d`. -/
theorem c5_counterexample :
    replaceUndefinedWithEmpty c5Example
      = .vobj (JSObj.ofList
          [("a", .vstr ""), ("b", .varr (JSArr.ofList [.vnum 1, .undef, .vnum 3]))])
    ∧ replaceUndefinedWithEmpty c5Example
      ≠ .vobj (JSObj.ofList
          [("a", .vstr ""), ("b", .varr (JSArr.ofList [.vnum 1, .vstr "", .vnum 3]))]) := by
  refine ⟨rfl, ?_⟩
  intro h
  simp [c5Example, JSObj.ofList, JSArr.ofList, replaceUndefinedWithEmpty,
    replaceUndefinedWithEmptyObj, replaceUndefinedWithEmptyArr] at h

/-- C5 (corrected): normalization replaces every `undefined` found as a
mapping value — at any nesting depth — with the empty string, but an
`undefined` array element is returned unchanged (it then serializes as
`null`): the example normalizes to `\x7b a: "", b: [1, undefined, 3] \x7d`,
whose wire body is `\x7b"a":"","b":[1,null,3]\x7d`. -/
theorem c5_scrub_behavior :
    (∀ v : JSVal, objValuesClean (replaceUndefinedWithEmpty v) = true)
    ∧ replaceUndefinedWithEmpty c5Example
        = .vobj (JSObj.ofList
            [("a", .vstr ""), ("b", .varr (JSArr.ofList [.vnum 1, .undef, .vnum 3]))])
    ∧ jsonStr (replaceUndefinedWithEmpty c5Example)
        = some "\x7b\"a\":\"\",\"b\":[1,null,3]\x7d" := by
  exact ⟨scrub_objValuesClean, rfl, rfl⟩

/-- A schema fixture accepting any value unchanged. -/
def schemaAccept : Schema := fun v => .ok v

/-- A request with a body that `req.json()` cannot parse and content-type
`text/plain` (neither JSON nor multipart). -/
def c6Req : Req :=
  { method := "POST", pathname := "/c6", query := [],
    headers := [("content-type", "text/plain")], jsonBody := none, formBody := none }

/-- C6 counterexample: with a declared body schema and the non-multipart
content-type `text/plain`, the payload is not parsed as JSON at all — even
though `req.json()` would throw, validation succeeds on `undefined` instead
of producing the claimed 400 malformed-body failure. -/
theorem c6_counterexample :
    jsIncludes (contentTypeOf c6Req) "multipart/form-data" = false
    ∧ c6Req.jsonBody = none
    ∧ parseAndValidateBody c6Req (some schemaAccept) none = .ok ⟨.undef, none⟩
    ∧ ∀ e : ValErr, parseAndValidateBody c6Req (some schemaAccept) none ≠ .error e := by
  refine ⟨rfl, rfl, rfl, ?_⟩
  intro e h
  exact Except.noConfusion h

/-- C6 (corrected): for a route with a declared bodySchema, the payload is
parsed as JSON exactly when the content-type includes `application/json`;
there a parse failure yields the 400 `Invalid body` response whose issues
list is exactly the single `Malformed JSON` issue (distinct from a
schema-issue list), and a successful parse is run through the body schema.
Non-JSON, non-multipart content types skip parsing and validate
`undefined`. -/
theorem c6_json_body_validation (req : Req) (sch : Schema) (fd : Option FormDataV)
    (hct : jsIncludes (contentTypeOf req) "application/json" = true) :
    (req.jsonBody = none →
      parseAndValidateBody req (some sch) fd = .error ⟨.body, [⟨"Malformed JSON"⟩]⟩)
    ∧ (∀ b, req.jsonBody = some b →
        parseAndValidateBody req (some sch) fd
          = (match sch b with
             | .fail issues => .error ⟨.body, issues⟩
             | .ok d => .ok ⟨d, fd⟩))
    ∧ (∀ (route : RouteDefinition) (tr : Trace),
        route.querySchema = none → route.headersSchema = none →
        route.bodySchema = some sch → req.jsonBody = none →
        terminalAction route req tr
          = (.resp (errorResponse "Invalid body" 400 (some [⟨"Malformed JSON"⟩])),
             { tr with validationEntered := true })) := by
  have hbody : ∀ (fd' : Option FormDataV), req.jsonBody = none →
      parseAndValidateBody req (some sch) fd' = .error ⟨.body, [⟨"Malformed JSON"⟩]⟩ := by
    intro fd' hn
    simp [parseAndValidateBody, hct, hn]
  refine ⟨hbody fd, ?_, ?_⟩
  · intro b hb
    simp [parseAndValidateBody, hct, hb]
  · intro route tr hq hh hb hn
    have hctx : buildCtx route req = .error ⟨.body, [⟨"Malformed JSON"⟩]⟩ := by
      unfold buildCtx validateRequest
      rw [hq, hh, hb]
      simp only [parseAndValidateQuery, parseAndValidateHeaders]
      rw [hbody (parseFormData req) hn]
    unfold terminalAction
    rw [hctx]
    rfl

/-- A route fixture declaring only a body schema. -/
def c6Route : RouteDefinition :=
  { path := "/c6", methods := some ["POST"], handler := handlerNull,
    headersSchema := none, bodySchema := some schemaAccept, querySchema := none,
    responseSchema := none, middlewares := none }

/-- A JSON request whose body `req.json()` cannot parse. -/
def c6JsonReq : Req :=
  { method := "POST", pathname := "/c6", query := [],
    headers := [("content-type", "application/json")], jsonBody := none, formBody := none }

/-- C6 witness: the malformed-JSON 400 with its single issue, on a concrete
route and request. -/
theorem c6_witness :
    terminalAction c6Route c6JsonReq trace0
      = (.resp (errorResponse "Invalid body" 400 (some [⟨"Malformed JSON"⟩])),
         { idx := -1, validationEntered := true, handlerEntered := false }) := by
  have h := (c6_json_body_validation c6JsonReq schemaAccept none rfl).2.2 c6Route trace0
    rfl rfl rfl rfl
  exact h

/-- A request carrying the query string `?a=1`. -/
def c7Req : Req :=
  { method := "GET", pathname := "/r", query := [("a", "1")], headers := [],
    jsonBody := none, formBody := none }

/-- The context `buildCtx` produces for `c7Req` on the schema-free route. -/
def c7Ctx : SupakitContext :=
  { formData := none, validatedBody := .undef, validatedQuery := .undef,
    validatedHeaders := .undef, params := .vobj .nil }

/-- C7 counterexample: on a route with no querySchema the handler context's
validatedQuery is `undefined`, not the raw query mapping `\x7b a: "1" \x7d` —
the raw mapping is never built, let alone passed through. -/
theorem c7_counterexample :
    buildCtx plainRoute c7Req = .ok c7Ctx
    ∧ c7Ctx.validatedQuery = .undef
    ∧ c7Ctx.validatedQuery ≠ .vobj (JSObj.ofList [("a", .vstr "1")]) := by
  refine ⟨rfl, rfl, ?_⟩
  intro h
  exact JSVal.noConfusion h

/-- C7 (corrected): when no querySchema is declared, the query string is not
parsed into a mapping at all; `parseAndValidateQuery` returns `undefined` and
the context handed to the handler has `validatedQuery = undefined` instead of
the raw mapping. -/
theorem c7_no_query_schema (req : Req) (route : RouteDefinition) (ctx : SupakitContext)
    (hq : route.querySchema = none) (hok : buildCtx route req = .ok ctx) :
    parseAndValidateQuery req route.querySchema = .ok .undef
    ∧ ctx.validatedQuery = .undef := by
  refine ⟨by rw [hq]; rfl, ?_⟩
  unfold buildCtx validateRequest at hok
  rw [hq] at hok
  simp only [parseAndValidateQuery] at hok
  cases hh : parseAndValidateHeaders req route.headersSchema with
  | error e => rw [hh] at hok; exact Except.noConfusion hok
  | ok vh =>
      rw [hh] at hok
      cases hb : parseAndValidateBody req route.bodySchema (parseFormData req) with
      | error e => rw [hb] at hok; exact Except.noConfusion hok
      | ok br =>
          rw [hb] at hok
          have h2 := Except.ok.inj hok
          rw [← h2]

/-- C7 witness: the amended no-querySchema behavior on the concrete request
`?a=1` and the schema-free route. -/
theorem c7_witness :
    parseAndValidateQuery c7Req plainRoute.querySchema = .ok .undef
    ∧ c7Ctx.validatedQuery = .undef :=
  c7_no_query_schema c7Req plainRoute c7Ctx rfl rfl

/-- Lookup of a response header by exact name. -/
def lookupHdr (hs : List (String × JSVal)) (key : String) : Option JSVal :=
  (hs.find? (fun kv => kv.1 == key)).map (fun kv => kv.2)

/-- The response carries the three CORS headers with their exact values. -/
def corsIn (r : Resp) : Prop :=
  lookupHdr r.headers "Access-Control-Allow-Origin" = some (.vstr "*")
  ∧ lookupHdr r.headers "Access-Control-Allow-Headers"
      = some (.vstr "authorization, x-client-info, apikey, content-type")
  ∧ lookupHdr r.headers "Access-Control-Allow-Methods"
      = some (.vstr "GET, POST, PUT, DELETE, OPTIONS")

theorem find?_map_replace (m : List (String × JSVal)) (key k : String) (v : JSVal)
    (h : key ≠ k) :
    (m.map (fun kv => if kv.1 == key then (key, v) else kv)).find? (fun kv => kv.1 == k)
      = m.find? (fun kv => kv.1 == k) := by
  induction m with
  | nil => rfl
  | cons kv rest ih =>
      by_cases hk : kv.1 = key
      · have hne : (kv.1 == k) = false := by simp [hk, h]
        have hne' : ((key, v).1 == k) = false := by simp [h]
        simp only [List.map_cons, hk, beq_self_eq_true, if_true]
        rw [List.find?_cons_of_neg _ (by simp [hne']), List.find?_cons_of_neg _ (by simp [hne]),
          ih]
      · have hcond : (kv.1 == key) = false := by simp [hk]
        simp only [List.map_cons, hcond, Bool.false_eq_true, if_false]
        by_cases hkk : kv.1 = k
        · rw [List.find?_cons_of_pos _ (by simp [hkk]), List.find?_cons_of_pos _ (by simp [hkk])]
        · rw [List.find?_cons_of_neg _ (by simp [hkk]), List.find?_cons_of_neg _ (by simp [hkk]),
            ih]

theorem find?_append_single (m : List (String × JSVal)) (key k : String) (v : JSVal)
    (h : key ≠ k) :
    (m ++ [(key, v)]).find? (fun kv => kv.1 == k) = m.find? (fun kv => kv.1 == k) := by
  induction m with
  | nil =>
      simp only [List.nil_append]
      rw [List.find?_cons_of_neg _ (by simp [h])]
  | cons kv rest ih =>
      by_cases hkk : kv.1 = k
      · rw [List.cons_append, List.find?_cons_of_pos _ (by simp [hkk]),
          List.find?_cons_of_pos _ (by simp [hkk])]
      · rw [List.cons_append, List.find?_cons_of_neg _ (by simp [hkk]),
          List.find?_cons_of_neg _ (by simp [hkk]), ih]

theorem lookupHdr_setKey_ne (m : List (String × JSVal)) (key k : String) (v : JSVal)
    (h : key ≠ k) : lookupHdr (setKey m key v) k = lookupHdr m k := by
  unfold setKey lookupHdr
  by_cases ha : m.any (fun kv => kv.1 == key) = true
  · simp only [ha, if_true]
    rw [find?_map_replace m key k v h]
  · simp only [Bool.not_eq_true] at ha
    simp only [ha, Bool.false_eq_true, if_false]
    rw [find?_append_single m key k v h]

theorem lookupHdr_objAssign_ne (entries : List (String × JSVal))
    (m : List (String × JSVal)) (k : String) (h : ∀ kv ∈ entries, kv.1 ≠ k) :
    lookupHdr (objAssign m entries) k = lookupHdr m k := by
  induction entries generalizing m with
  | nil => rfl
  | cons kv rest ih =>
      show lookupHdr (objAssign (setKey m kv.1 kv.2) rest) k = _
      rw [ih (setKey m kv.1 kv.2) (fun x hx => h x (by simp [hx])),
        lookupHdr_setKey_ne m kv.1 k kv.2 (h kv (by simp))]

theorem lookupHdr_normalizeShape_headers (v : JSVal) (key : String) (val : JSVal)
    (hbase : lookupHdr defaultResHeaders key = some val)
    (hno : ∀ kv ∈ spreadEntries (coalesce ((objFields v).getKey "headers") (.vobj .nil)),
        kv.1 ≠ key) :
    lookupHdr (normalizeShape v).2.1 key = some val := by
  unfold normalizeShape
  by_cases hs : isShapedResult v = true
  · simp only [hs, if_true]
    rw [lookupHdr_objAssign_ne _ _ _ hno]
    exact hbase
  · simp only [Bool.not_eq_true] at hs
    simp only [hs, Bool.false_eq_true, if_false]
    exact hbase

theorem normalizeHandlerValue_headers_or_error (route : RouteDefinition) (v : JSVal) :
    (normalizeHandlerValue route v).headers = (normalizeShape (replaceUndefinedWithEmpty v)).2.1
    ∨ ∃ issues, normalizeHandlerValue route v
        = errorResponse "Invalid response data" 500 (some issues) := by
  simp only [normalizeHandlerValue]
  cases route.responseSchema with
  | none => exact Or.inl rfl
  | some sch =>
      by_cases hu : isUndef (normalizeShape (replaceUndefinedWithEmpty v)).2.2 = true
      · simp only [hu, if_true]
        exact Or.inl rfl
      · simp only [Bool.not_eq_true] at hu
        simp only [hu, Bool.false_eq_true, if_false]
        cases hsch : sch (normalizeShape (replaceUndefinedWithEmpty v)).2.2 with
        | fail issues => exact Or.inr ⟨issues, rfl⟩
        | ok d => exact Or.inl rfl

/-- C8 (corrected): every response the dispatcher itself builds carries the
three CORS headers — all `errorResponse` envelopes (404/400/500), the
OPTIONS preflight answer, and normalized handler results as long as the
handler's shaped `headers` do not themselves rebind a CORS header name.
Responses passed through pre-built (returned as `Response` instances by a
middleware short-circuit or a handler) are returned unmodified and carry no
CORS headers unless their builder added them. -/
theorem c8_cors_on_dispatcher_responses :
    (∀ (message : String) (status : Int) (issues : Option (List Issue)),
        corsIn (errorResponse message status issues))
    ∧ (∀ (req : Req) (r : Resp), handleCors req = some r → corsIn r)
    ∧ (∀ (route : RouteDefinition) (v : JSVal),
        (∀ kv ∈ spreadEntries (coalesce
              ((objFields (replaceUndefinedWithEmpty v)).getKey "headers") (.vobj .nil)),
          kv.1 ≠ "Access-Control-Allow-Origin"
          ∧ kv.1 ≠ "Access-Control-Allow-Headers"
          ∧ kv.1 ≠ "Access-Control-Allow-Methods") →
        corsIn (normalizeHandlerValue route v)) := by
  refine ⟨fun _ _ _ => ⟨rfl, rfl, rfl⟩, ?_, ?_⟩
  · intro req r h
    unfold handleCors at h
    by_cases hm : (req.method == "OPTIONS") = true
    · rw [if_pos hm] at h
      have h2 := Option.some.inj h
      rw [← h2]
      exact ⟨rfl, rfl, rfl⟩
    · rw [if_neg hm] at h
      exact Option.noConfusion h
  · intro route v hno
    rcases normalizeHandlerValue_headers_or_error route v with hh | ⟨issues, he⟩
    · refine ⟨?_, ?_, ?_⟩
      all_goals rw [hh]
      · exact lookupHdr_normalizeShape_headers _ _ _ rfl (fun kv hkv => (hno kv hkv).1)
      · exact lookupHdr_normalizeShape_headers _ _ _ rfl (fun kv hkv => (hno kv hkv).2.1)
      · exact lookupHdr_normalizeShape_headers _ _ _ rfl (fun kv hkv => (hno kv hkv).2.2)
    · rw [he]
      exact ⟨rfl, rfl, rfl⟩

/-- A route whose single middleware short-circuits with the pre-built,
CORS-free response `c2Resp`. -/
def c8Route : RouteDefinition :=
  { path := "/c8", methods := some ["GET"], handler := handlerNull,
    headersSchema := none, bodySchema := none, querySchema := none, responseSchema := none,
    middlewares := some [mwShort] }

/-- The request hitting `c8Route`. -/
def c8Req : Req :=
  { method := "GET", pathname := "/c8", query := [], headers := [], jsonBody := none,
    formBody := none }

/-- C8 counterexample: a middleware short-circuit response is emitted by the
dispatcher exactly as built — here with an empty header list — so it carries
none of the three CORS headers, refuting the claim for middleware
short-circuits (and likewise for handler-built `Response`s). -/
theorem c8_counterexample :
    (serveStep [c8Route] c8Req trace0).1 = c2Resp
    ∧ lookupHdr (serveStep [c8Route] c8Req trace0).1.headers "Access-Control-Allow-Origin"
        = none
    ∧ lookupHdr (serveStep [c8Route] c8Req trace0).1.headers "Access-Control-Allow-Headers"
        = none
    ∧ lookupHdr (serveStep [c8Route] c8Req trace0).1.headers "Access-Control-Allow-Methods"
        = none := by
  exact ⟨rfl, rfl, rfl, rfl⟩

/-- C8 witness: the normalized-result clause of the amended claim evaluated
on a concrete shaped result with no handler headers. -/
theorem c8_witness :
    corsIn (normalizeHandlerValue plainRoute
      (.vobj (JSObj.ofList [("status", .vnum 201)]))) := by
  refine c8_cors_on_dispatcher_responses.2.2 plainRoute
    (.vobj (JSObj.ofList [("status", .vnum 201)])) ?_
  intro kv hkv
  simp [spreadEntries, coalesce, isNullish, objFields, JSObj.ofList, JSObj.getKey,
    replaceUndefinedWithEmpty, replaceUndefinedWithEmptyObj, JSObj.toList] at hkv

/-- C9 (confirmed): when a responseSchema is declared but the resolved
response body is `undefined`, the schema is never consulted: the response is
built directly from the shaped status and headers, and no error-envelope
response — in particular no 500 `Invalid response data` — can result. -/
theorem c9_response_schema_skipped_on_undefined_body (route : RouteDefinition) (sch : Schema)
    (v : JSVal) (st : JSVal) (hs : List (String × JSVal))
    (hsch : route.responseSchema = some sch)
    (hnorm : normalizeShape (replaceUndefinedWithEmpty v) = (st, hs, .undef)) :
    normalizeHandlerValue route v = buildResp st hs .undef
    ∧ ∀ (message : String) (status : Int) (issues : Option (List Issue)),
        normalizeHandlerValue route v ≠ errorResponse message status issues := by
  have hmain : normalizeHandlerValue route v = buildResp st hs .undef := by
    simp [normalizeHandlerValue, hsch, hnorm, isUndef]
  refine ⟨hmain, ?_⟩
  intro message status issues h
  rw [hmain] at h
  have hb := congrArg Resp.body h
  simp [buildResp, jsonStr, errorResponse] at hb

/-- A schema fixture rejecting every value. -/
def schemaReject : Schema := fun _ => .fail [⟨"rejected"⟩]

/-- A route declaring (only) a rejecting response schema. -/
def c9Route : RouteDefinition :=
  { path := "/c9", methods := some ["GET"], handler := handlerNull,
    headersSchema := none, bodySchema := none, querySchema := none,
    responseSchema := some schemaReject, middlewares := none }

/-- C9 witness: a shaped result carrying neither `body` nor `data` bypasses
even an always-rejecting response schema. -/
theorem c9_witness :
    normalizeHandlerValue c9Route (.vobj (JSObj.ofList [("status", .vnum 201)]))
      = buildResp (.vnum 201) defaultResHeaders .undef
    ∧ normalizeHandlerValue c9Route (.vobj (JSObj.ofList [("status", .vnum 201)]))
      ≠ errorResponse "Invalid response data" 500 (some [⟨"rejected"⟩]) := by
  have h := c9_response_schema_skipped_on_undefined_body c9Route schemaReject
    (.vobj (JSObj.ofList [("status", .vnum 201)])) (.vnum 201) defaultResHeaders rfl rfl
  exact ⟨h.1, h.2 "Invalid response data" 500 (some [⟨"rejected"⟩])⟩

/-- C10 (confirmed): multipart form data is pre-parsed only for POST/PUT
requests whose content-type includes `multipart/form-data`; with no
bodySchema declared, the context's `formData` equals the pre-parse result —
in particular `undefined` for any other method even when the request carries
a multipart content-type. -/
theorem c10_formdata_preparse :
    (∀ req : Req, req.method ≠ "POST" → req.method ≠ "PUT" → parseFormData req = none)
    ∧ (∀ req : Req, jsIncludes (contentTypeOf req) "multipart/form-data" = false →
        parseFormData req = none)
    ∧ (∀ req : Req, (req.method = "POST" ∨ req.method = "PUT") →
        jsIncludes (contentTypeOf req) "multipart/form-data" = true →
        parseFormData req = req.formBody)
    ∧ (∀ (route : RouteDefinition) (req : Req) (ctx : SupakitContext),
        route.bodySchema = none → buildCtx route req = .ok ctx →
        ctx.formData = parseFormData req)
    ∧ (∀ (route : RouteDefinition) (req : Req) (ctx : SupakitContext),
        route.bodySchema = none → req.method ≠ "POST" → req.method ≠ "PUT" →
        jsIncludes (contentTypeOf req) "multipart/form-data" = true →
        buildCtx route req = .ok ctx → ctx.formData = none) := by
  have hc1 : ∀ req : Req, req.method ≠ "POST" → req.method ≠ "PUT" →
      parseFormData req = none := by
    intro req h1 h2
    simp [parseFormData, h1, h2]
  have hc4 : ∀ (route : RouteDefinition) (req : Req) (ctx : SupakitContext),
      route.bodySchema = none → buildCtx route req = .ok ctx →
      ctx.formData = parseFormData req := by
    intro route req ctx hb hok
    unfold buildCtx validateRequest at hok
    rw [hb] at hok
    cases hq : parseAndValidateQuery req route.querySchema with
    | error e => rw [hq] at hok; exact Except.noConfusion hok
    | ok vq =>
        rw [hq] at hok
        cases hh : parseAndValidateHeaders req route.headersSchema with
        | error e => rw [hh] at hok; exact Except.noConfusion hok
        | ok vh =>
            rw [hh] at hok
            simp only [parseAndValidateBody] at hok
            have h2 := Except.ok.inj hok
            rw [← h2]
            cases hpf : parseFormData req <;> simp [hpf]
  refine ⟨hc1, ?_, ?_, hc4, ?_⟩
  · intro req hct
    simp [parseFormData, hct]
  · intro req hm hct
    rcases hm with h | h <;> simp [parseFormData, h, hct]
  · intro route req ctx hb h1 h2 _ hok
    rw [hc4 route req ctx hb hok, hc1 req h1 h2]

/-- A GET request carrying a multipart content-type and a parseable form
body. -/
def c10Req : Req :=
  { method := "GET", pathname := "/r", query := [],
    headers := [("content-type", "multipart/form-data; boundary=x")],
    jsonBody := none, formBody := some [("file", .file "a.png")] }

/-- C10 witness: a GET request with multipart content-type and no bodySchema
reaches the handler with `formData = undefined`. -/
theorem c10_witness :
    buildCtx plainRoute c10Req = .ok c7Ctx ∧ c7Ctx.formData = none := by
  refine ⟨rfl, ?_⟩
  exact c10_formdata_preparse.2.2.2.2 plainRoute c10Req c7Ctx rfl (by decide) (by decide)
    rfl rfl
